import Mathlib

/-!
# Verification of the session/ledger core (ccodeseer)

A shallow embedding of the server-side session lifecycle and payment code:

* `src/server/src/routes/sessions.ts` — request / accept / decline / end
* `src/server/src/routes/payments.ts` — reader earnings view and manual payout
* `src/server/src/jobs/payouts.ts` — automatic payout job
* `src/unnamed/part_006` (drizzle schema) — the data model
* webhook deposit handler and admin refund route

Monetary amounts are modelled as exact rationals (`ℚ`); the source stores
`decimal(10,2)` strings and computes in JS numbers, but none of the claims
hinge on binary floating point rounding, and the exact-arithmetic model is
the faithful reading of the arithmetic expressions in the handlers.
Database rows are modelled as lists of structures; `.where(eq(...))`
filters/updates are list operations on the matching rows; `.limit(1)`
look-ups are `List.find?`.  Express `throw`s are modelled by returning the
incoming state unchanged together with an error (in every embedded handler
the source throws strictly before its first write).
-/

inductive SessionType
  | chat | voice | video
deriving DecidableEq, Repr

inductive SessionStatus
  | pending | active | completed | cancelled | disputed
deriving DecidableEq, Repr

inductive ReaderStatus
  | online | offline | busy | inSession
deriving DecidableEq, Repr

inductive StripeStatus
  | pending | active | restricted
deriving DecidableEq, Repr

inductive TxType
  | deposit | readingPayment | readingEarning | payout | refund | gift | shopPurchase
deriving DecidableEq, Repr

inductive TxStatus
  | pending | completed | failed | refunded
deriving DecidableEq, Repr

/-- `client_profiles` row (schema in `src/unnamed/part_006`). -/
structure ClientProfile where
  userId : String
  balance : ℚ
  totalSpent : ℚ
deriving DecidableEq, Repr

/-- `reader_profiles` row (schema in `src/unnamed/part_006`).  `id` is the
profile's own primary key, `userId` the owning user. -/
structure ReaderProfile where
  id : String
  userId : String
  chatRatePerMin : ℚ
  voiceRatePerMin : ℚ
  videoRatePerMin : ℚ
  status : ReaderStatus
  totalReadings : ℕ
  pendingBalance : ℚ
  totalEarned : ℚ
  totalPaidOut : ℚ
  stripeAccountId : Option String
  stripeAccountStatus : StripeStatus
deriving DecidableEq, Repr

/-- `reading_sessions` row.  Times are wall-clock milliseconds. -/
structure Session where
  id : String
  clientId : String
  readerId : String
  type : SessionType
  status : SessionStatus
  ratePerMin : ℚ
  startTimeMs : Option ℕ
  endTimeMs : Option ℕ
  duration : ℕ
  totalAmount : ℚ
  platformFee : ℚ
  readerEarnings : ℚ
  notes : Option String
deriving DecidableEq, Repr

/-- `transactions` row (journal). -/
structure Transaction where
  userId : String
  sessionId : Option String
  type : TxType
  amount : ℚ
  fee : ℚ
  netAmount : ℚ
  status : TxStatus
deriving DecidableEq, Repr

/-- `pending_payouts` row.  `rowId` is a serial primary key (the source uses
a generated uuid; only freshness matters).  `status` is a plain varchar in
the schema: "pending" / "processing" / "completed" / "failed". -/
structure PendingPayout where
  rowId : ℕ
  readerId : String
  amount : ℚ
  status : String
  stripeTransferId : Option String
deriving DecidableEq, Repr

/-- An event published on the Ably bus (`src/server/src/config/ably.ts`);
`publishNotification` only publishes, it persists no row. -/
inductive Event
  | readerStatus (readerId : String) (status : ReaderStatus)
  | notification (userId : String) (ntype : String)
  | sessionEvent (sessionId : String) (name : String)
deriving DecidableEq, Repr

/-- The relational store restricted to the tables the claims touch. -/
structure DB where
  clients : List ClientProfile
  readers : List ReaderProfile
  sessions : List Session
  transactions : List Transaction
  payouts : List PendingPayout
  events : List Event
deriving DecidableEq, Repr

/-- Error classes thrown by the handlers
(`src/server/src/middleware/errorHandler`). -/
inductive ApiError
  | notFound (what : String)
  | validation (msg : String)
  | insufficientBalance
deriving DecidableEq, Repr

/-- `db.update(tbl).set(u).where(p)`: updates every matching row. -/
def updateWhere {α} (p : α → Bool) (u : α → α) (l : List α) : List α :=
  l.map fun x => if p x then u x else x

/-- Rate selected by the `switch (type)` in the request handler. -/
def ReaderProfile.rateFor (r : ReaderProfile) : SessionType → ℚ
  | .chat => r.chatRatePerMin
  | .voice => r.voiceRatePerMin
  | .video => r.videoRatePerMin

/-- `config.payment.platformFeePercent` (src/server/src/config/index.ts). -/
def platformFeePercent : ℚ := 30

/-- `config.payment.minPayoutAmount` (src/server/src/config/index.ts). -/
def minPayoutAmount : ℚ := 15

/-- The row inserted by POST `/sessions/request` (sessions.ts, 77–89):
`status = pending`, rate frozen from the reader's current rate. -/
def newSessionRow (clientUserId readerId : String) (ty : SessionType)
    (sessionId : String) (ratePerMin : ℚ) : Session :=
  { id := sessionId, clientId := clientUserId, readerId := readerId
    type := ty, status := .pending, ratePerMin := ratePerMin
    startTimeMs := none, endTimeMs := none, duration := 0
    totalAmount := 0, platformFee := 0, readerEarnings := 0
    notes := none }

/-- POST `/sessions/request` (src/server/src/routes/sessions.ts, 16–103).
`ty` is the already-validated session type; `sessionId` stands for the
freshly drawn uuid. -/
def requestSession (db : DB) (clientUserId readerId : String)
    (ty : SessionType) (sessionId : String) : DB × Except ApiError Session :=
  match db.readers.find? (fun r => r.userId == readerId) with
  | none => (db, .error (.notFound "Reader"))
  | some reader =>
    if reader.status ≠ .online then
      (db, .error (.validation "Reader is not available"))
    else
      match db.clients.find? (fun c => c.userId == clientUserId) with
      | none => (db, .error (.notFound "Client profile"))
      | some client =>
        let ratePerMin := reader.rateFor ty
        let minimumBalance := ratePerMin * 3
        if client.balance < minimumBalance then
          (db, .error .insufficientBalance)
        else
          let session := newSessionRow clientUserId readerId ty sessionId ratePerMin
          let db' := { db with
            sessions := db.sessions ++ [session]
            events := db.events ++ [.notification readerId "session_request"] }
          (db', .ok session)

/-- The session update applied on accept (sessions.ts, 128–136). -/
def acceptUpdatedSession (s : Session) (nowMs : ℕ) : Session :=
  { s with status := SessionStatus.active, startTimeMs := some nowMs }

/-- POST `/sessions/:sessionId/accept` (sessions.ts, 106–183).  The Agora
token minting is pure credential generation and is not modelled; the
returned value is the updated session row of the response. -/
def acceptSession (db : DB) (userId sessionId : String) (nowMs : ℕ) :
    DB × Except ApiError Session :=
  match db.sessions.find? (fun s => s.id == sessionId) with
  | none => (db, .error (.notFound "Session"))
  | some session =>
    if session.readerId ≠ userId then
      (db, .error (.validation "Only the reader can accept this session"))
    else if session.status ≠ .pending then
      (db, .error (.validation "Session is not pending"))
    else
      let upd := fun (s : Session) => acceptUpdatedSession s nowMs
      let db' := { db with
        sessions := updateWhere (fun s => s.id == sessionId) upd db.sessions
        readers := updateWhere (fun r => r.userId == userId)
          (fun r => { r with status := ReaderStatus.inSession }) db.readers
        events := db.events ++
          [.readerStatus userId .inSession,
           .notification session.clientId "session_accepted",
           .sessionEvent sessionId "session-started"] }
      (db', .ok (upd session))

/-- `durationSeconds = Math.ceil((endTime − startTime) / 1000)`
(sessions.ts, 254–256); `startTime = session.startTime || new Date()`. -/
def endDuration (session : Session) (nowMs : ℕ) : ℕ :=
  (nowMs - session.startTimeMs.getD nowMs + 999) / 1000

/-- `durationMinutes = Math.ceil(durationSeconds / 60)` (sessions.ts, 257). -/
def endMinutes (session : Session) (nowMs : ℕ) : ℕ :=
  (endDuration session nowMs + 59) / 60

/-- `totalAmount = durationMinutes * ratePerMin` (sessions.ts, 260). -/
def endTotal (session : Session) (nowMs : ℕ) : ℚ :=
  (endMinutes session nowMs : ℚ) * session.ratePerMin

/-- `platformFee = totalAmount * (platformFeePercent / 100)`
(sessions.ts, 261), as the exact rational product.  The handler computes
this in binary64 and the schema's `numeric(10,2)` column rounds the
resulting decimal string to 2 decimals on write; that coercion is NOT
modelled here.  Every fee appearing in the theorems below is exact at
2 decimals, where the coercion is the identity. -/
def endFee (session : Session) (nowMs : ℕ) : ℚ :=
  endTotal session nowMs * (platformFeePercent / 100)

/-- `readerEarnings = totalAmount − platformFee` (sessions.ts, 262). -/
def endEarnings (session : Session) (nowMs : ℕ) : ℚ :=
  endTotal session nowMs - endFee session nowMs

/-- The session update written on end (sessions.ts, 265–277).  Monetary
fields carry the handler's unrounded rational values; the `numeric(10,2)`
scale coercion the store applies on write is not modelled (it is the
identity on the 2-decimal-exact values these theorems evaluate). -/
def endUpdatedSession (s : Session) (nowMs : ℕ) : Session :=
  { s with status := SessionStatus.completed, endTimeMs := some nowMs
           duration := endDuration s nowMs, totalAmount := endTotal s nowMs
           platformFee := endFee s nowMs
           readerEarnings := endEarnings s nowMs }

/-- POST `/sessions/:sessionId/end` (sessions.ts, 233–352).  Mirrors the
source line by line: full `totalAmount` debited from the client,
fee = 30 % with no rounding, and the reader profile update only sets
`status = online` and `totalReadings + 1`. -/
def endSession (db : DB) (userId sessionId : String) (nowMs : ℕ) :
    DB × Except ApiError Session :=
  match db.sessions.find? (fun s => s.id == sessionId) with
  | none => (db, .error (.notFound "Session"))
  | some session =>
    if session.clientId ≠ userId ∧ session.readerId ≠ userId then
      (db, .error (.validation "Not authorized to end this session"))
    else if session.status ≠ .active then
      (db, .error (.validation "Session is not active"))
    else
      let totalAmount := endTotal session nowMs
      let platformFee := endFee session nowMs
      let readerEarnings := endEarnings session nowMs
      let db' := { db with
        sessions := updateWhere (fun s => s.id == sessionId)
          (fun s => endUpdatedSession s nowMs) db.sessions
        clients := updateWhere (fun c => c.userId == session.clientId)
          (fun c => { c with balance := c.balance - totalAmount
                             totalSpent := c.totalSpent + totalAmount })
          db.clients
        transactions := db.transactions ++
          [{ userId := session.clientId, sessionId := some sessionId
             type := .readingPayment, amount := totalAmount, fee := 0
             netAmount := totalAmount, status := .completed },
           { userId := session.readerId, sessionId := some sessionId
             type := .readingEarning, amount := totalAmount
             fee := platformFee, netAmount := readerEarnings
             status := .completed }]
        readers := updateWhere (fun r => r.userId == session.readerId)
          (fun r => { r with status := ReaderStatus.online
                             totalReadings := r.totalReadings + 1 })
          db.readers
        events := db.events ++
          [.readerStatus session.readerId .online,
           .sessionEvent sessionId "session-ended",
           .notification session.clientId "session_ended",
           .notification session.readerId "session_ended"] }
      (db', .ok (endUpdatedSession session nowMs))

/-- A primary-key value strictly larger than every `rowId` already in the
table: stands for the source's freshly generated uuid. -/
def freshPayoutId (l : List PendingPayout) : ℕ :=
  l.foldr (fun p m => max (p.rowId + 1) m) 0

/-- Sum of `net_amount` over a user's completed `reading_earning`
transactions — the aggregate both reader payment routes run
(payments.ts, 222–234 and 387–399). -/
def earningsSum (txs : List Transaction) (uid : String) : ℚ :=
  ((txs.filter fun t =>
      t.userId == uid && t.type == TxType.readingEarning
        && t.status == TxStatus.completed).map (·.netAmount)).sum

/-- Sum of `amount` over a reader's payout rows with `status = completed`
(payments.ts, 236–247, the GET earnings route). -/
def completedPayoutSum (ps : List PendingPayout) (uid : String) : ℚ :=
  ((ps.filter fun p => p.readerId == uid && p.status == "completed").map
    (·.amount)).sum

/-- Sum of `amount` over ALL of a reader's payout rows, any status
(payments.ts, 401–406, the POST payout route: no status filter). -/
def allPayoutSum (ps : List PendingPayout) (uid : String) : ℚ :=
  ((ps.filter fun p => p.readerId == uid).map (·.amount)).sum

/-- GET `/payments/reader/earnings` (payments.ts, 211–263): the
`(pendingBalance, totalEarned, totalPaidOut)` triple of the response,
derived entirely from the journal. -/
def readerEarningsView (db : DB) (userId : String) :
    Except ApiError (ℚ × ℚ × ℚ) :=
  match db.readers.find? (fun r => r.userId == userId) with
  | none => .error (.notFound "Reader profile")
  | some _reader =>
    let totalEarned := earningsSum db.transactions userId
    let totalPaidOut := completedPayoutSum db.payouts userId
    .ok (totalEarned - totalPaidOut, totalEarned, totalPaidOut)

/-- POST `/payments/reader/payout` (payments.ts, 372–450).  `tid` stands for
the id of the Stripe transfer the route creates; the route recomputes the
pending balance from the journal and pays that amount out. -/
def manualPayout (db : DB) (userId tid : String) : DB × Except ApiError ℚ :=
  match db.readers.find? (fun r => r.userId == userId) with
  | none => (db, .error (.notFound "Reader profile"))
  | some reader =>
    if reader.stripeAccountId = none ∨ reader.stripeAccountStatus ≠ .active then
      (db, .error (.validation "Stripe Connect account not set up or not active"))
    else
      let pendingBalance :=
        earningsSum db.transactions userId - allPayoutSum db.payouts userId
      if pendingBalance < minPayoutAmount then
        (db, .error (.validation "Minimum payout amount"))
      else
        let db' := { db with
          payouts := db.payouts ++
            [{ rowId := freshPayoutId db.payouts, readerId := userId
               amount := pendingBalance, status := "completed"
               stripeTransferId := some tid }]
          transactions := db.transactions ++
            [{ userId := userId, sessionId := none, type := .payout
               amount := pendingBalance, fee := 0
               netAmount := pendingBalance, status := .completed }] }
        (db', .ok pendingBalance)

/-- Eligibility filter of the automatic payout job
(src/server/src/jobs/payouts.ts, 23–31). -/
def payoutEligible (r : ReaderProfile) : Bool :=
  minPayoutAmount ≤ r.pendingBalance && r.stripeAccountStatus == .active

/-- Per-reader loop body of `processAutomaticPayouts` (payouts.ts, 35–121).
`transfer` abstracts `transferToReader`: given the Stripe account id it
returns the transfer id, or `none` when the external call throws.  Readers
without a `stripeAccountId` are skipped by the `continue`.  On failure the
catch block flips every `processing` payout row of that reader to
`failed`. -/
def payoutsGo (transfer : String → Option String) :
    List ReaderProfile → DB → ℕ → ℕ → ℚ → DB × ℕ × ℕ × ℚ
  | [], db, p, f, t => (db, p, f, t)
  | r :: rest, db, p, f, t =>
    match r.stripeAccountId with
    | none => payoutsGo transfer rest db p f t
    | some acct =>
      let pid := freshPayoutId db.payouts
      let db1 := { db with payouts := db.payouts ++
        [({ rowId := pid, readerId := r.id, amount := r.pendingBalance
            status := "processing", stripeTransferId := some "" } :
            PendingPayout)] }
      match transfer acct with
      | some tid =>
        let db2 := { db1 with
          payouts := updateWhere (fun q => q.rowId == pid)
            (fun q => { q with status := "completed"
                               stripeTransferId := some tid }) db1.payouts
          readers := updateWhere (fun q => q.id == r.id)
            (fun q => { q with pendingBalance := 0
                               totalPaidOut := q.totalPaidOut + r.pendingBalance })
            db1.readers
          transactions := db1.transactions ++
            [({ userId := r.userId, sessionId := none, type := .payout
                amount := r.pendingBalance, fee := 0
                netAmount := r.pendingBalance, status := .completed } :
                Transaction)] }
        payoutsGo transfer rest db2 (p + 1) f (t + r.pendingBalance)
      | none =>
        let db2 := { db1 with
          payouts := updateWhere
            (fun q => q.readerId == r.id && q.status == "processing")
            (fun q => { q with status := "failed" }) db1.payouts }
        payoutsGo transfer rest db2 p (f + 1) t

/-- `processAutomaticPayouts` (payouts.ts, 10–131): select the eligible
readers from the current table, then run the loop.  Returns the final
state and the `(processed, failed, totalAmount)` report. -/
def processAutomaticPayouts (transfer : String → Option String) (db : DB) :
    DB × ℕ × ℕ × ℚ :=
  payoutsGo transfer (db.readers.filter payoutEligible) db 0 0 0

/-! ## General lemmas about the row-update and aggregate operations -/

lemma updateWhere_eq_map {α} (p : α → Bool) (u : α → α) (l : List α) :
    updateWhere p u l = l.map fun x => if p x then u x else x := rfl

lemma find?_updateWhere {α} (p q : α → Bool) (u : α → α) (l : List α)
    (hq : ∀ x, q (u x) = q x) :
    (updateWhere p u l).find? q =
      (l.find? q).map fun x => if p x then u x else x := by
  induction l with
  | nil => rfl
  | cons a l ih =>
    by_cases ha : q a = true
    · have ha' : q (if p a then u a else a) = true := by
        by_cases hp : p a <;> simp [hp, hq, ha]
      simp [updateWhere, List.find?_cons, ha, ha']
    · have ha' : q (if p a then u a else a) = false := by
        by_cases hp : p a <;>
          simp_all [hq, Bool.not_eq_true]
      rw [Bool.not_eq_true] at ha
      simpa [updateWhere, List.find?_cons, ha, ha'] using ih

/-- Looking a row up by the same key the update targeted: the result is the
updated row, provided the update does not change the key. -/
lemma find?_updateWhere_self {α} (p : α → Bool) (u : α → α) (l : List α)
    (hp : ∀ x, p (u x) = p x) :
    (updateWhere p u l).find? p = (l.find? p).map u := by
  rw [find?_updateWhere p p u l hp]
  cases h : l.find? p with
  | none => rfl
  | some a => simp [List.find?_some h]

/-- Looking up a row the update cannot touch: unchanged. -/
lemma find?_updateWhere_other {α} (p q : α → Bool) (u : α → α) (l : List α)
    (hq : ∀ x, q (u x) = q x) (hdisj : ∀ x, q x = true → p x = false) :
    (updateWhere p u l).find? q = l.find? q := by
  rw [find?_updateWhere p q u l hq]
  cases h : l.find? q with
  | none => rfl
  | some a => simp [hdisj a (List.find?_some h)]

/-- A column projection the update leaves alone is unchanged across the
whole table. -/
lemma map_updateWhere {α β} (p : α → Bool) (u : α → α) (f : α → β)
    (l : List α) (hf : ∀ x, f (u x) = f x) :
    (updateWhere p u l).map f = l.map f := by
  rw [updateWhere_eq_map, List.map_map]
  refine List.map_congr_left fun a _ => ?_
  by_cases hp : p a <;> simp [hp, hf]

/-- Row counts for a predicate the update preserves (on the rows it
touches) are unchanged. -/
lemma countP_updateWhere {α} (p q : α → Bool) (u : α → α) (l : List α)
    (hq : ∀ x, p x = true → q (u x) = q x) :
    (updateWhere p u l).countP q = l.countP q := by
  induction l with
  | nil => rfl
  | cons a l ih =>
    have hhead : q (if p a then u a else a) = q a := by
      by_cases hp : p a
      · simp [hp, hq a hp]
      · simp [hp]
    rw [updateWhere_eq_map, List.map_cons, List.countP_cons, hhead,
      ← updateWhere_eq_map, ih, List.countP_cons]

lemma freshPayoutId_lt (l : List PendingPayout) :
    ∀ p ∈ l, p.rowId < freshPayoutId l := by
  induction l with
  | nil => intro p hp; cases hp
  | cons a l ih =>
    intro p hp
    rcases List.mem_cons.mp hp with h | hp
    · subst h
      exact lt_of_lt_of_le (Nat.lt_succ_self _) (le_max_left _ _)
    · exact lt_of_lt_of_le (ih p hp) (le_max_right _ _)

/-! ## Concrete fixtures

Scenario 1 of the spec (§8): client C with balance 10.00, reader R with
chat rate 1.50/min, one 90-second chat session S1. -/

def clientC : ClientProfile := { userId := "C", balance := 10, totalSpent := 0 }

def readerR : ReaderProfile :=
  { id := "RP", userId := "R", chatRatePerMin := 3/2, voiceRatePerMin := 2,
    videoRatePerMin := 3, status := .inSession, totalReadings := 0,
    pendingBalance := 0, totalEarned := 0, totalPaidOut := 0,
    stripeAccountId := some "acct-r", stripeAccountStatus := .active }

def sessionS1 : Session :=
  { id := "S1", clientId := "C", readerId := "R", type := .chat,
    status := .active, ratePerMin := 3/2, startTimeMs := some 0,
    endTimeMs := none, duration := 0, totalAmount := 0, platformFee := 0,
    readerEarnings := 0, notes := none }

def dbScenario1 : DB :=
  { clients := [clientC], readers := [readerR], sessions := [sessionS1],
    transactions := [], payouts := [], events := [] }

/-- State after the first `end` of scenario 1: S1 completed. -/
def sessionDone : Session := endUpdatedSession sessionS1 90000

def dbDone : DB := (endSession dbScenario1 "C" "S1" 90000).1

/-! ## C5 — idempotence of `end` -/

/-- C5 counterexample: after scenario 1's first `end`, a second `end` by the
client does NOT return the stored result — the handler throws
`ValidationError("Session is not active")` (sessions.ts, 250–252), leaving
the state untouched. -/
theorem end_second_call_returns_error :
    endSession dbDone "C" "S1" 100000 =
      (dbDone, .error (.validation "Session is not active")) := by
  rfl

/-- C5 (amended): a second `end` on an already-completed session is
rejected with the validation error "Session is not active"; the state — in
particular the client balance, the journal, and the published events — is
returned unchanged, so no further debit, journal rows, or notifications
are produced.  The stored result is not returned. -/
theorem end_on_completed_session_rejected (db : DB) (uid sid : String)
    (now : ℕ) (session : Session)
    (hfind : db.sessions.find? (fun s => s.id == sid) = some session)
    (hparty : session.clientId = uid ∨ session.readerId = uid)
    (hdone : session.status = SessionStatus.completed) :
    endSession db uid sid now =
      (db, .error (.validation "Session is not active")) := by
  have h1 : ¬(session.clientId ≠ uid ∧ session.readerId ≠ uid) := by
    rcases hparty with h | h <;> simp [h]
  have h2 : session.status ≠ SessionStatus.active := by
    rw [hdone]; intro h; cases h
  simp only [endSession, hfind, if_neg h1, if_pos h2]

/-- C5 witness: the amended statement applied to the concrete state after
scenario 1's first end. -/
theorem end_on_completed_session_rejected_witness :
    endSession dbDone "C" "S1" 100000 =
      (dbDone, .error (.validation "Session is not active")) :=
  end_on_completed_session_rejected dbDone "C" "S1" 100000 sessionDone
    (by rfl) (Or.inl rfl) rfl

/-! ## C6 — idempotence of `accept` -/

/-- C6 counterexample: `accept` on the already-active session S1 by its
reader does NOT return the session row again — the handler throws
`ValidationError("Session is not pending")` (sessions.ts, 123–125). -/
theorem accept_second_call_returns_error :
    acceptSession dbScenario1 "R" "S1" 50 =
      (dbScenario1, .error (.validation "Session is not pending")) := by
  rfl

/-- C6 (amended): a second `accept` on an already-active session is
rejected with the validation error "Session is not pending" and the state
is returned unchanged (so no duplicate events or notifications, but also
no session row and no fresh RTC token in the response). -/
theorem accept_on_active_session_rejected (db : DB) (uid sid : String)
    (now : ℕ) (session : Session)
    (hfind : db.sessions.find? (fun s => s.id == sid) = some session)
    (hown : session.readerId = uid)
    (hact : session.status = SessionStatus.active) :
    acceptSession db uid sid now =
      (db, .error (.validation "Session is not pending")) := by
  have h1 : ¬session.readerId ≠ uid := by simp [hown]
  have h2 : session.status ≠ SessionStatus.pending := by
    rw [hact]; intro h; cases h
  simp only [acceptSession, hfind, if_neg h1, if_pos h2]

/-- C6 witness: the amended statement at the concrete active session S1. -/
theorem accept_on_active_session_rejected_witness :
    acceptSession dbScenario1 "R" "S1" 50 =
      (dbScenario1, .error (.validation "Session is not pending")) :=
  accept_on_active_session_rejected dbScenario1 "R" "S1" 50 sessionS1
    (by rfl) rfl rfl

/-! ## The successful `end` path, characterised once -/

lemma endSession_ok (db : DB) (uid sid : String) (now : ℕ) (session : Session)
    (hfind : db.sessions.find? (fun s => s.id == sid) = some session)
    (hparty : session.clientId = uid ∨ session.readerId = uid)
    (hact : session.status = SessionStatus.active) :
    endSession db uid sid now =
      ({ db with
         sessions := updateWhere (fun s => s.id == sid)
           (fun s => endUpdatedSession s now) db.sessions
         clients := updateWhere (fun c => c.userId == session.clientId)
           (fun c => { c with balance := c.balance - endTotal session now
                              totalSpent := c.totalSpent + endTotal session now })
           db.clients
         transactions := db.transactions ++
           [{ userId := session.clientId, sessionId := some sid
              type := .readingPayment, amount := endTotal session now, fee := 0
              netAmount := endTotal session now, status := .completed },
            { userId := session.readerId, sessionId := some sid
              type := .readingEarning, amount := endTotal session now
              fee := endFee session now, netAmount := endEarnings session now
              status := .completed }]
         readers := updateWhere (fun r => r.userId == session.readerId)
           (fun r => { r with status := ReaderStatus.online
                              totalReadings := r.totalReadings + 1 })
           db.readers
         events := db.events ++
           [.readerStatus session.readerId .online,
            .sessionEvent sid "session-ended",
            .notification session.clientId "session_ended",
            .notification session.readerId "session_ended"] },
       .ok (endUpdatedSession session now)) := by
  have h1 : ¬(session.clientId ≠ uid ∧ session.readerId ≠ uid) := by
    rcases hparty with h | h <;> simp [h]
  have h2 : ¬session.status ≠ SessionStatus.active := by simp [hact]
  simp only [endSession, hfind, if_neg h1, if_neg h2]

/-! ## C7 — duration and minute billing -/

/-- C7 counterexample: a session ended in the same millisecond it started.
The handler computes `duration_seconds = 0` — there is no `max(1, ·)` — so
`minutes_billed = 0` and `total_amount = 0`: the claimed 1-minute floor
does not exist. -/
theorem end_zero_elapsed_bills_nothing :
    (endSession dbScenario1 "C" "S1" 0).2 =
        .ok (endUpdatedSession sessionS1 0) ∧
      (endUpdatedSession sessionS1 0).duration = 0 ∧
      endMinutes sessionS1 0 = 0 ∧
      (endUpdatedSession sessionS1 0).totalAmount = 0 ∧
      ¬ 1 ≤ endMinutes sessionS1 0 := by
  refine ⟨rfl, rfl, rfl, ?_, by decide⟩
  simp [endUpdatedSession, endTotal, endMinutes, endDuration, sessionS1]

/-- C7 (amended): `end` computes
`duration_seconds = ceil((end_time − start_time) in ms / 1000)` with no
1-second floor, and bills `ceil(duration_seconds / 60)` whole started
minutes: a 1-second session bills one minute and a 61-second session bills
two, but a session ended 0 ms after it started bills zero minutes. -/
theorem end_duration_and_minutes (db : DB) (uid sid : String) (now : ℕ)
    (session : Session)
    (hfind : db.sessions.find? (fun s => s.id == sid) = some session)
    (hparty : session.clientId = uid ∨ session.readerId = uid)
    (hact : session.status = SessionStatus.active) :
    (endSession db uid sid now).2 = .ok (endUpdatedSession session now) ∧
      (endUpdatedSession session now).duration =
        (now - session.startTimeMs.getD now + 999) / 1000 ∧
      endMinutes session now = ((endUpdatedSession session now).duration + 59) / 60 ∧
      (endUpdatedSession session now).totalAmount =
        (endMinutes session now : ℚ) * session.ratePerMin ∧
      endMinutes sessionS1 1000 = 1 ∧ endMinutes sessionS1 61000 = 2 := by
  refine ⟨?_, rfl, rfl, rfl, by decide, by decide⟩
  rw [endSession_ok db uid sid now session hfind hparty hact]

/-- C7 witness: the amended statement at the 90-second scenario-1 session. -/
theorem end_duration_and_minutes_witness :
    (endSession dbScenario1 "C" "S1" 90000).2 =
        .ok (endUpdatedSession sessionS1 90000) ∧
      (endUpdatedSession sessionS1 90000).duration =
        (90000 - sessionS1.startTimeMs.getD 90000 + 999) / 1000 ∧
      endMinutes sessionS1 90000 =
        ((endUpdatedSession sessionS1 90000).duration + 59) / 60 ∧
      (endUpdatedSession sessionS1 90000).totalAmount =
        (endMinutes sessionS1 90000 : ℚ) * sessionS1.ratePerMin ∧
      endMinutes sessionS1 1000 = 1 ∧ endMinutes sessionS1 61000 = 2 :=
  end_duration_and_minutes dbScenario1 "C" "S1" 90000 sessionS1
    (by rfl) (Or.inl rfl) rfl

/-! ## C2 — balance non-negativity / capped debit -/

def clientPoor : ClientProfile := { userId := "CP", balance := 1, totalSpent := 0 }

/-- Scenario 4 of the spec (§8): balance 1.00, active 1.50/min session. -/
def sessionPartial : Session :=
  { id := "SP", clientId := "CP", readerId := "R", type := .chat,
    status := .active, ratePerMin := 3/2, startTimeMs := some 0,
    endTimeMs := none, duration := 0, totalAmount := 0, platformFee := 0,
    readerEarnings := 0, notes := none }

def dbPartial : DB :=
  { clients := [clientPoor], readers := [readerR], sessions := [sessionPartial],
    transactions := [], payouts := [], events := [] }

/-- C2 counterexample: ending a 60-second 1.50/min session while the client
holds only 1.00 drives the balance to −0.50.  The handler debits the full
`total_amount` (sessions.ts, 279–287) with no `min(balance, total_amount)`
cap, no pro-rata scaling, and no `partial_settlement` flag, so
`balance ≥ 0` fails. -/
theorem end_overdraws_balance :
    ((endSession dbPartial "CP" "SP" 60000).1.clients.find?
        (fun c => c.userId == "CP")).map (fun c => c.balance)
      = some (-(1/2)) ∧ (-(1/2) : ℚ) < 0 := by
  constructor
  · simp [endSession, dbPartial, sessionPartial, clientPoor, readerR,
      updateWhere, endTotal, endFee, endEarnings, endMinutes, endDuration,
      endUpdatedSession, platformFeePercent]
    norm_num
  · norm_num

/-- C2 (amended): `end` debits `charged = session.total_amount` in full —
not `min(current balance, total_amount)` — regardless of the client's
current balance, so after `end` the balance is exactly
`old balance − total_amount` and can be negative; the `balance ≥ 0`
invariant does not hold. -/
theorem end_debits_full_amount (db : DB) (uid sid : String) (now : ℕ)
    (session : Session) (client : ClientProfile)
    (hfind : db.sessions.find? (fun s => s.id == sid) = some session)
    (hparty : session.clientId = uid ∨ session.readerId = uid)
    (hact : session.status = SessionStatus.active)
    (hclient : db.clients.find? (fun c => c.userId == session.clientId)
      = some client) :
    (endSession db uid sid now).1.clients.find?
        (fun c => c.userId == session.clientId)
      = some { client with
          balance := client.balance - endTotal session now
          totalSpent := client.totalSpent + endTotal session now } := by
  rw [endSession_ok db uid sid now session hfind hparty hact]
  dsimp only
  rw [find?_updateWhere_self (fun c => c.userId == session.clientId)
    (fun c => { c with balance := c.balance - endTotal session now
                       totalSpent := c.totalSpent + endTotal session now })
    db.clients (fun c => rfl), hclient]
  rfl

/-- C2 witness: at scenario 1 the client ends with `10 − 3.00`. -/
theorem end_debits_full_amount_witness :
    (endSession dbScenario1 "C" "S1" 90000).1.clients.find?
        (fun c => c.userId == sessionS1.clientId)
      = some { clientC with
          balance := clientC.balance - endTotal sessionS1 90000
          totalSpent := clientC.totalSpent + endTotal sessionS1 90000 } :=
  end_debits_full_amount dbScenario1 "C" "S1" 90000 sessionS1 clientC
    (by rfl) (Or.inl rfl) rfl (by rfl)

/-! ## C1 — reader credit on end -/

/-- C1: `end` NEVER credits the reader profile.  First conjunct: for every
state and every call, the `pending_balance` and `total_earned` columns of
every reader profile are bit-for-bit unchanged by `endSession` (the reader
update at sessions.ts 313–321 only sets `status` and `totalReadings`).
Then scenario 1 concretely: the 90-second session at 1.50/min computes
`reader_earnings = 2.10`, yet the reader's `pending_balance` and
`total_earned` remain 0 — not 2.10 as claimed. -/
theorem end_never_credits_reader :
    (∀ db uid sid now,
      ((endSession db uid sid now).1.readers.map
          (fun r => (r.pendingBalance, r.totalEarned))) =
        db.readers.map (fun r => (r.pendingBalance, r.totalEarned))) ∧
      (endSession dbScenario1 "C" "S1" 90000).2 = .ok sessionDone ∧
      sessionDone.readerEarnings = 21/10 ∧
      dbDone.readers.map (fun r => (r.pendingBalance, r.totalEarned))
        = [(0, 0)] := by
  refine ⟨?_, rfl, ?_, by rfl⟩
  · intro db uid sid now
    unfold endSession
    split
    · rfl
    · split
      · rfl
      · split
        · rfl
        · exact map_updateWhere _ _ _ db.readers (fun r => rfl)
  · simp [sessionDone, endUpdatedSession, endEarnings, endFee, endTotal,
      endMinutes, endDuration, sessionS1, platformFeePercent]
    norm_num

/-! ## C4 — at most one active session per reader -/

/-- Reader R while still online (before any accept). -/
def readerFree : ReaderProfile := { readerR with status := ReaderStatus.online }

def clientOne : ClientProfile := { userId := "C1", balance := 10, totalSpent := 0 }

def clientTwo : ClientProfile := { userId := "C2", balance := 10, totalSpent := 0 }

/-- Two pending sessions for the same reader R (spec §8 scenario 3). -/
def sessionSA : Session :=
  { id := "SA", clientId := "C1", readerId := "R", type := .chat,
    status := .pending, ratePerMin := 3/2, startTimeMs := none,
    endTimeMs := none, duration := 0, totalAmount := 0, platformFee := 0,
    readerEarnings := 0, notes := none }

def sessionSB : Session :=
  { id := "SB", clientId := "C2", readerId := "R", type := .chat,
    status := .pending, ratePerMin := 3/2, startTimeMs := none,
    endTimeMs := none, duration := 0, totalAmount := 0, platformFee := 0,
    readerEarnings := 0, notes := none }

def dbTwoPending : DB :=
  { clients := [clientOne, clientTwo], readers := [readerFree],
    sessions := [sessionSA, sessionSB], transactions := [], payouts := [],
    events := [] }

/-- C4 counterexample: R accepts SA (presence becomes `in_session`), then
accepts SB as well.  The second accept succeeds — the handler checks only
`status = pending` and ownership (sessions.ts, 119–125), never the reader's
presence — so afterwards TWO sessions hold reader R with
`status = active`, no `READER_UNAVAILABLE` is returned, and SB is not
cancelled. -/
theorem accept_allows_double_booking :
    ((acceptSession dbTwoPending "R" "SA" 10).1.readers.map
        (fun r => r.status) = [ReaderStatus.inSession]) ∧
      (acceptSession (acceptSession dbTwoPending "R" "SA" 10).1
          "R" "SB" 20).2 = .ok (acceptUpdatedSession sessionSB 20) ∧
      ((acceptSession (acceptSession dbTwoPending "R" "SA" 10).1
          "R" "SB" 20).1.sessions.countP
        (fun s => s.readerId == "R" && s.status == SessionStatus.active)) = 2 ∧
      ((acceptSession (acceptSession dbTwoPending "R" "SA" 10).1
          "R" "SB" 20).1.sessions.countP
        (fun s => s.status == SessionStatus.cancelled)) = 0 :=
  ⟨rfl, rfl, rfl, rfl⟩

/-- C4 (amended): `accept` succeeds on any pending session owned by the
requesting reader regardless of the reader's presence status — the handler
performs no presence re-check under lock, never produces
`READER_UNAVAILABLE`, and never transitions the session to `cancelled` —
so accepting a second pending session while already `in_session` makes it
a second active session for the same reader. -/
theorem accept_ignores_reader_presence (db : DB) (uid sid : String)
    (now : ℕ) (session : Session)
    (hfind : db.sessions.find? (fun s => s.id == sid) = some session)
    (hown : session.readerId = uid)
    (hpend : session.status = SessionStatus.pending) :
    acceptSession db uid sid now =
      ({ db with
         sessions := updateWhere (fun s => s.id == sid)
           (fun s => acceptUpdatedSession s now) db.sessions
         readers := updateWhere (fun r => r.userId == uid)
           (fun r => { r with status := ReaderStatus.inSession }) db.readers
         events := db.events ++
           [.readerStatus uid .inSession,
            .notification session.clientId "session_accepted",
            .sessionEvent sid "session-started"] },
       .ok (acceptUpdatedSession session now)) := by
  have h1 : ¬session.readerId ≠ uid := by simp [hown]
  have h2 : ¬session.status ≠ SessionStatus.pending := by simp [hpend]
  simp only [acceptSession, hfind, if_neg h1, if_neg h2]

/-- C4 witness: the amended statement applied to the second pending session
while the reader is already `in_session` after the first accept. -/
theorem accept_ignores_reader_presence_witness :
    acceptSession (acceptSession dbTwoPending "R" "SA" 10).1 "R" "SB" 20 =
      ({ (acceptSession dbTwoPending "R" "SA" 10).1 with
         sessions := updateWhere (fun s => s.id == "SB")
           (fun s => acceptUpdatedSession s 20)
           (acceptSession dbTwoPending "R" "SA" 10).1.sessions
         readers := updateWhere (fun r => r.userId == "R")
           (fun r => { r with status := ReaderStatus.inSession })
           (acceptSession dbTwoPending "R" "SA" 10).1.readers
         events := (acceptSession dbTwoPending "R" "SA" 10).1.events ++
           [.readerStatus "R" .inSession,
            .notification sessionSB.clientId "session_accepted",
            .sessionEvent "SB" "session-started"] },
       .ok (acceptUpdatedSession sessionSB 20)) :=
  accept_ignores_reader_presence (acceptSession dbTwoPending "R" "SA" 10).1
    "R" "SB" 20 sessionSB (by rfl) rfl rfl

/-! ## C8 — the balance gate on request -/

/-- C8: with the reader present and online and the client profile present,
`request` fails with `INSUFFICIENT_BALANCE` exactly when
`balance < 3 × rate_per_min` for the requested type, returning the state
unchanged (no session row, no transaction, no notification); otherwise it
persists exactly one new session row with `status = pending` and
`rate_per_min` frozen from the reader's then-current rate for the type,
plus the reader's `session_request` notification event. -/
theorem request_balance_gate (db : DB) (cu ru : String) (ty : SessionType)
    (sid : String) (reader : ReaderProfile) (client : ClientProfile)
    (hr : db.readers.find? (fun r => r.userId == ru) = some reader)
    (hon : reader.status = ReaderStatus.online)
    (hc : db.clients.find? (fun c => c.userId == cu) = some client) :
    (client.balance < reader.rateFor ty * 3 →
      requestSession db cu ru ty sid = (db, .error .insufficientBalance)) ∧
    (¬client.balance < reader.rateFor ty * 3 →
      requestSession db cu ru ty sid =
        ({ db with
           sessions := db.sessions ++
             [newSessionRow cu ru ty sid (reader.rateFor ty)]
           events := db.events ++ [.notification ru "session_request"] },
         .ok (newSessionRow cu ru ty sid (reader.rateFor ty)))) := by
  have hno : ¬reader.status ≠ ReaderStatus.online := by simp [hon]
  constructor
  · intro hlt
    simp only [requestSession, hr, if_neg hno, hc, if_pos hlt]
  · intro hge
    simp only [requestSession, hr, if_neg hno, hc, if_neg hge]

def clientBroke : ClientProfile := { userId := "CW", balance := 2, totalSpent := 0 }

def dbBroke : DB :=
  { clients := [clientBroke], readers := [readerFree], sessions := [],
    transactions := [], payouts := [], events := [] }

/-- C8 witness: scenario 2 of the spec — balance 2.00 against a 1.50/min
chat rate (reserve 4.50) is rejected with no rows written. -/
theorem request_balance_gate_witness :
    requestSession dbBroke "CW" "R" SessionType.chat "SW" =
      (dbBroke, .error .insufficientBalance) :=
  (request_balance_gate dbBroke "CW" "R" SessionType.chat "SW" readerFree
    clientBroke (by rfl) rfl (by rfl)).1
    (by norm_num [clientBroke, readerFree, readerR, ReaderProfile.rateFor])

/-! ## C10 — journal-derived reader balances -/

/-- A completed `reading_earning` journal row of 20.00 for reader R. -/
def earnTx20 : Transaction :=
  { userId := "R", sessionId := some "S0", type := .readingEarning,
    amount := 20, fee := 0, netAmount := 20, status := .completed }

/-- A failed payout row of 5.00 for reader R. -/
def failedPayout5 : PendingPayout :=
  { rowId := 0, readerId := "R", amount := 5, status := "failed",
    stripeTransferId := none }

def dbLedger : DB :=
  { clients := [], readers := [readerR], sessions := [],
    transactions := [earnTx20], payouts := [failedPayout5], events := [] }

/-- C10 counterexample: with one completed 20.00 earning and one recorded
but FAILED 5.00 payout row, GET `/payments/reader/earnings` reports a
pending balance of 20.00 — it subtracts only `status = completed` payout
rows (payments.ts, 236–247) — while the claimed "sum of net_amount minus
sum of amounts of the recorded payout rows" is 15.00.  (The POST payout
route is the one that subtracts all recorded rows.) -/
theorem earnings_view_skips_failed_payout_rows :
    readerEarningsView dbLedger "R" = .ok (20, 20, 0) ∧
      earningsSum dbLedger.transactions "R"
        - allPayoutSum dbLedger.payouts "R" = 15 ∧
      ((20 : ℚ) ≠ 15) := by
  refine ⟨?_, ?_, by norm_num⟩
  · simp [readerEarningsView, dbLedger, earnTx20, failedPayout5, readerR,
      earningsSum, completedPayoutSum]
  · simp [earningsSum, allPayoutSum, dbLedger, earnTx20, failedPayout5]
    norm_num

/-- C10 (amended): both reader payment routes derive the pending balance
from the transaction journal and are unaffected by the
`ReaderProfile.pending_balance` column (which only the automatic payout
scheduler's eligibility filter reads): GET `/payments/reader/earnings`
reports `Σ net_amount of completed reading_earning − Σ amount of COMPLETED
payout rows`, POST `/payments/reader/payout` pays `Σ net_amount of
completed reading_earning − Σ amount of ALL recorded payout rows`, and
overwriting the profile's `pending_balance` with any value changes
neither result. -/
theorem reader_balance_from_journal (db : DB) (uid tid : String)
    (r : ReaderProfile)
    (hr : db.readers.find? (fun x => x.userId == uid) = some r)
    (hacct : r.stripeAccountId ≠ none)
    (hst : r.stripeAccountStatus = StripeStatus.active)
    (hmin : ¬(earningsSum db.transactions uid
      - allPayoutSum db.payouts uid < minPayoutAmount)) :
    readerEarningsView db uid =
      .ok (earningsSum db.transactions uid
             - completedPayoutSum db.payouts uid,
           earningsSum db.transactions uid,
           completedPayoutSum db.payouts uid) ∧
    (manualPayout db uid tid).2 =
      .ok (earningsSum db.transactions uid
        - allPayoutSum db.payouts uid) ∧
    (∀ q : ℚ,
      readerEarningsView
        { db with
          readers := updateWhere (fun x => x.userId == uid)
            (fun x => { x with pendingBalance := q }) db.readers } uid
        = readerEarningsView db uid ∧
      (manualPayout
        { db with
          readers := updateWhere (fun x => x.userId == uid)
            (fun x => { x with pendingBalance := q }) db.readers } uid
        tid).2 = (manualPayout db uid tid).2) := by
  have hcond : ¬(r.stripeAccountId = none
      ∨ r.stripeAccountStatus ≠ StripeStatus.active) := by
    push_neg
    exact ⟨hacct, by simp [hst]⟩
  refine ⟨?_, ?_, ?_⟩
  · simp only [readerEarningsView, hr]
  · simp only [manualPayout, hr, if_neg hcond, if_neg hmin]
  · intro q
    have hfind2 : (updateWhere (fun x => x.userId == uid)
        (fun x => { x with pendingBalance := q }) db.readers).find?
          (fun x => x.userId == uid) = some { r with pendingBalance := q } := by
      rw [find?_updateWhere_self (fun x => x.userId == uid)
        (fun x => { x with pendingBalance := q }) db.readers (fun x => rfl), hr]
      rfl
    have hcond2 : ¬({ r with pendingBalance := q }.stripeAccountId = none
        ∨ { r with pendingBalance := q }.stripeAccountStatus
          ≠ StripeStatus.active) := hcond
    constructor
    · simp only [readerEarningsView, hfind2, hr]
    · simp only [manualPayout, hfind2, hr, if_neg hcond, if_neg hcond2,
        if_neg hmin]

/-- State for the C10 witness: one completed 20.00 earning, no payout
rows, so the pending balance (20.00) clears the 15.00 floor. -/
def dbRich : DB :=
  { clients := [], readers := [readerR], sessions := [],
    transactions := [earnTx20], payouts := [], events := [] }

/-- C10 witness: the amended statement at the concrete journal state. -/
theorem reader_balance_from_journal_witness :
    readerEarningsView dbRich "R" =
      .ok (earningsSum dbRich.transactions "R"
             - completedPayoutSum dbRich.payouts "R",
           earningsSum dbRich.transactions "R",
           completedPayoutSum dbRich.payouts "R") ∧
    (manualPayout dbRich "R" "T1").2 =
      .ok (earningsSum dbRich.transactions "R"
        - allPayoutSum dbRich.payouts "R") ∧
    (∀ q : ℚ,
      readerEarningsView
        { dbRich with
          readers := updateWhere (fun x => x.userId == "R")
            (fun x => { x with pendingBalance := q }) dbRich.readers } "R"
        = readerEarningsView dbRich "R" ∧
      (manualPayout
        { dbRich with
          readers := updateWhere (fun x => x.userId == "R")
            (fun x => { x with pendingBalance := q }) dbRich.readers } "R"
        "T1").2 = (manualPayout dbRich "R" "T1").2) :=
  reader_balance_from_journal dbRich "R" "T1" readerR (by rfl)
    (by simp [readerR]) rfl
    (by norm_num [earningsSum, allPayoutSum, dbRich, earnTx20,
      minPayoutAmount])

/-! ## C9 — the automatic payout job -/

/-- Number of completed payout rows recorded for `pid`. -/
def completedRowCount (ps : List PendingPayout) (pid : String) : ℕ :=
  ps.countP (fun p => p.readerId == pid && p.status == "completed")

/-- Number of `payout` journal rows for user `uid`. -/
def payoutTxCount (txs : List Transaction) (uid : String) : ℕ :=
  txs.countP (fun t => t.userId == uid && t.type == TxType.payout)

/-- The `status='processing'` payout row inserted by the job
(payouts.ts, 44–53). -/
def processingPayoutRow (db : DB) (r : ReaderProfile) : PendingPayout :=
  { rowId := freshPayoutId db.payouts, readerId := r.id
    amount := r.pendingBalance, status := "processing"
    stripeTransferId := some "" }

/-- The same row after the success update (payouts.ts, 66–74). -/
def completedPayoutRow (db : DB) (r : ReaderProfile) (tid : String) :
    PendingPayout :=
  { rowId := freshPayoutId db.payouts, readerId := r.id
    amount := r.pendingBalance, status := "completed"
    stripeTransferId := some tid }

/-- The profile update on success (payouts.ts, 76–84): `pending_balance`
reset to 0, `total_paid_out` incremented by the snapshot amount. -/
def readerPaidUpdate (amt : ℚ) (q : ReaderProfile) : ReaderProfile :=
  { q with pendingBalance := 0, totalPaidOut := q.totalPaidOut + amt }

/-- The `payout` transaction row inserted on success (payouts.ts, 86–96). -/
def payoutTxRow (r : ReaderProfile) : Transaction :=
  { userId := r.userId, sessionId := none, type := .payout
    amount := r.pendingBalance, fee := 0, netAmount := r.pendingBalance
    status := .completed }

lemma updateWhere_fresh_append (l : List PendingPayout) (row : PendingPayout)
    (u : PendingPayout → PendingPayout) (hrow : row.rowId = freshPayoutId l) :
    updateWhere (fun q => q.rowId == freshPayoutId l) u (l ++ [row])
      = l ++ [u row] := by
  rw [updateWhere_eq_map, List.map_append]
  congr 1
  · conv_rhs => rw [← List.map_id l]
    refine List.map_congr_left fun x hx => ?_
    have hlt := freshPayoutId_lt l x hx
    have hne : (x.rowId == freshPayoutId l) = false := by
      simp [Nat.ne_of_lt hlt]
    simp [hne]
  · simp [hrow]

/-- One loop iteration, skip case: the reader has no Stripe account id
(payouts.ts, 37–40). -/
lemma payoutsGo_cons_skip (transfer : String → Option String)
    (r : ReaderProfile) (rest : List ReaderProfile) (db : DB) (p f : ℕ)
    (t : ℚ) (hacct : r.stripeAccountId = none) :
    payoutsGo transfer (r :: rest) db p f t =
      payoutsGo transfer rest db p f t := by
  simp only [payoutsGo, hacct]

/-- One loop iteration, success case: the insert-then-update pair on the
payout row collapses to appending the completed row. -/
lemma payoutsGo_cons_success (transfer : String → Option String)
    (r : ReaderProfile) (rest : List ReaderProfile) (db : DB) (p f : ℕ)
    (t : ℚ) (acct tid : String)
    (hacct : r.stripeAccountId = some acct)
    (htr : transfer acct = some tid) :
    payoutsGo transfer (r :: rest) db p f t =
      payoutsGo transfer rest
        { db with
          payouts := db.payouts ++ [completedPayoutRow db r tid]
          readers := updateWhere (fun q => q.id == r.id)
            (readerPaidUpdate r.pendingBalance) db.readers
          transactions := db.transactions ++ [payoutTxRow r] }
        (p + 1) f (t + r.pendingBalance) := by
  simp only [payoutsGo, hacct, htr]
  rw [updateWhere_fresh_append db.payouts
    { rowId := freshPayoutId db.payouts, readerId := r.id
      amount := r.pendingBalance, status := "processing"
      stripeTransferId := some "" }
    (fun q => { q with status := "completed", stripeTransferId := some tid })
    rfl]
  rfl

/-- One loop iteration, failure case: the catch block flips the reader's
`processing` rows (including the just-inserted one) to `failed`; nothing
else changes (payouts.ts, 101–120). -/
lemma payoutsGo_cons_failure (transfer : String → Option String)
    (r : ReaderProfile) (rest : List ReaderProfile) (db : DB) (p f : ℕ)
    (t : ℚ) (acct : String)
    (hacct : r.stripeAccountId = some acct)
    (htr : transfer acct = none) :
    payoutsGo transfer (r :: rest) db p f t =
      payoutsGo transfer rest
        { db with
          payouts := updateWhere
            (fun q => q.readerId == r.id && q.status == "processing")
            (fun q => { q with status := "failed" })
            (db.payouts ++ [processingPayoutRow db r]) }
        p (f + 1) t := by
  simp only [payoutsGo, hacct, htr]
  rfl

/-- Under a `Nodup` key column, `find?` by an element's key returns that
element. -/
lemma find?_key_of_nodup {α} (key : α → String) (l : List α)
    (hn : (l.map key).Nodup) (r : α) (hr : r ∈ l) :
    l.find? (fun x => key x == key r) = some r := by
  induction l with
  | nil => cases hr
  | cons a l ih =>
    obtain ⟨hna, hn'⟩ := List.nodup_cons.mp hn
    rcases List.mem_cons.mp hr with h | h
    · subst h
      simp [List.find?_cons]
    · have hne : (key a == key r) = false := by
        have : key a ≠ key r := by
          intro heq
          exact hna (heq ▸ List.mem_map_of_mem key h)
        simpa using this
      rw [List.find?_cons_of_neg _ (by simp [hne]), ih hn' h]

/-- Splitting a `Nodup` key column around a distinguished element: every
other element's key differs. -/
lemma split_nodup_keys (key : ReaderProfile → String)
    (l1 l2 : List ReaderProfile) (r : ReaderProfile)
    (hn : ((l1 ++ r :: l2).map key).Nodup) :
    (∀ q ∈ l1, key q ≠ key r) ∧ (∀ q ∈ l2, key q ≠ key r) := by
  rw [List.map_append, List.map_cons, List.nodup_append] at hn
  obtain ⟨hn1, hn2, hdisj⟩ := hn
  refine ⟨fun q hq hkey => ?_, fun q hq hkey => ?_⟩
  · exact hdisj (List.mem_map_of_mem key hq)
      (hkey ▸ List.mem_cons_self _ _)
  · exact (List.nodup_cons.mp hn2).1 (hkey ▸ List.mem_map_of_mem key hq)

/-- Loop iterations over readers whose profile id and user id both differ
from `rid`/`ruid` leave that reader's profile row, completed-payout-row
count, and payout-transaction count untouched. -/
lemma payoutsGo_preserves (transfer : String → Option String)
    (rid ruid : String) :
    ∀ (todo : List ReaderProfile),
      (∀ q ∈ todo, q.id ≠ rid ∧ q.userId ≠ ruid) →
      ∀ (db : DB) (p f : ℕ) (t : ℚ),
        ((payoutsGo transfer todo db p f t).1.readers.find?
            (fun x => x.id == rid) =
          db.readers.find? (fun x => x.id == rid)) ∧
        completedRowCount (payoutsGo transfer todo db p f t).1.payouts rid =
          completedRowCount db.payouts rid ∧
        payoutTxCount (payoutsGo transfer todo db p f t).1.transactions ruid =
          payoutTxCount db.transactions ruid := by
  intro todo
  induction todo with
  | nil => exact fun _ db p f t => ⟨rfl, rfl, rfl⟩
  | cons a rest ih =>
    intro h db p f t
    have ha := h a (List.mem_cons_self a rest)
    have h' : ∀ q ∈ rest, q.id ≠ rid ∧ q.userId ≠ ruid :=
      fun q hq => h q (List.mem_cons_of_mem a hq)
    cases hacct : a.stripeAccountId with
    | none =>
      rw [payoutsGo_cons_skip transfer a rest db p f t hacct]
      exact ih h' db p f t
    | some acct =>
      cases htr : transfer acct with
      | some tid =>
        rw [payoutsGo_cons_success transfer a rest db p f t acct tid hacct htr]
        obtain ⟨ih1, ih2, ih3⟩ := ih h' _ (p + 1) f (t + a.pendingBalance)
        refine ⟨?_, ?_, ?_⟩
        · rw [ih1]
          dsimp only
          refine find?_updateWhere_other _ _ _ _ (fun x => rfl)
            (fun x hx => ?_)
          have hxe : x.id = rid := by simpa using hx
          have hxne : x.id ≠ a.id := by
            rw [hxe]; exact fun hh => ha.1 hh.symm
          simpa using hxne
        · rw [ih2]
          dsimp only
          rw [completedRowCount, List.countP_append]
          have hrow : List.countP
              (fun p => p.readerId == rid && p.status == "completed")
              [completedPayoutRow db a tid] = 0 := by
            have : (a.id == rid) = false := by simpa using ha.1
            simp [completedPayoutRow, this]
          rw [hrow, Nat.add_zero, completedRowCount]
        · rw [ih3]
          dsimp only
          rw [payoutTxCount, List.countP_append]
          have hrow : List.countP
              (fun t => t.userId == ruid && t.type == TxType.payout)
              [payoutTxRow a] = 0 := by
            have : (a.userId == ruid) = false := by simpa using ha.2
            simp [payoutTxRow, this]
          rw [hrow, Nat.add_zero, payoutTxCount]
      | none =>
        rw [payoutsGo_cons_failure transfer a rest db p f t acct hacct htr]
        obtain ⟨ih1, ih2, ih3⟩ := ih h' _ p (f + 1) t
        refine ⟨by rw [ih1], ?_, by rw [ih3]⟩
        rw [ih2]
        dsimp only
        rw [completedRowCount, countP_updateWhere _ _ _ _ ?hpres,
          List.countP_append]
        case hpres =>
          intro x hxp
          have hst : x.status = "processing" := by
            have := (Bool.and_eq_true _ _).mp hxp
            simpa using this.2
          simp [hst]
        have hrow : List.countP
            (fun p => p.readerId == rid && p.status == "completed")
            [processingPayoutRow db a] = 0 := by
          simp [processingPayoutRow]
        rw [hrow, Nat.add_zero, completedRowCount]

/-- The loop over a concatenation runs the prefix first, threading state
and counters. -/
lemma payoutsGo_append (transfer : String → Option String)
    (l1 : List ReaderProfile) :
    ∀ (l2 : List ReaderProfile) (db : DB) (p f : ℕ) (t : ℚ),
      payoutsGo transfer (l1 ++ l2) db p f t =
        payoutsGo transfer l2 (payoutsGo transfer l1 db p f t).1
          (payoutsGo transfer l1 db p f t).2.1
          (payoutsGo transfer l1 db p f t).2.2.1
          (payoutsGo transfer l1 db p f t).2.2.2 := by
  induction l1 with
  | nil => exact fun l2 db p f t => rfl
  | cons a l ih =>
    intro l2 db p f t
    cases hacct : a.stripeAccountId with
    | none =>
      rw [List.cons_append, payoutsGo_cons_skip transfer a (l ++ l2) db p f t hacct,
        payoutsGo_cons_skip transfer a l db p f t hacct, ih]
    | some acct =>
      cases htr : transfer acct with
      | some tid =>
        rw [List.cons_append,
          payoutsGo_cons_success transfer a (l ++ l2) db p f t acct tid hacct htr,
          payoutsGo_cons_success transfer a l db p f t acct tid hacct htr, ih]
      | none =>
        rw [List.cons_append,
          payoutsGo_cons_failure transfer a (l ++ l2) db p f t acct hacct htr,
          payoutsGo_cons_failure transfer a l db p f t acct hacct htr, ih]

lemma completedRowCount_append (ps qs : List PendingPayout) (pid : String) :
    completedRowCount (ps ++ qs) pid =
      completedRowCount ps pid + completedRowCount qs pid := by
  simp [completedRowCount, List.countP_append]

lemma payoutTxCount_append (ts us : List Transaction) (uid : String) :
    payoutTxCount (ts ++ us) uid =
      payoutTxCount ts uid + payoutTxCount us uid := by
  simp [payoutTxCount, List.countP_append]

/-- The failure-path payout-table rewrite keeps the completed-row count of
the failing reader unchanged: the flip only turns `processing` rows into
`failed` ones, and the freshly inserted row was `processing`. -/
lemma completedRowCount_failure (ps : List PendingPayout)
    (row : PendingPayout) (rid : String) (hrow : row.status = "processing") :
    completedRowCount
      (updateWhere (fun q => q.readerId == rid && q.status == "processing")
        (fun q => { q with status := "failed" }) (ps ++ [row])) rid =
      completedRowCount ps rid := by
  rw [completedRowCount, countP_updateWhere _ _ _ _ ?hpres, List.countP_append]
  case hpres =>
    intro x hxp
    have hst : x.status = "processing" := by
      have := (Bool.and_eq_true _ _).mp hxp
      simpa using this.2
    simp [hst]
  have hone : List.countP
      (fun p => p.readerId == rid && p.status == "completed") [row] = 0 := by
    simp [hrow]
  rw [hone, Nat.add_zero, completedRowCount]

/-- A reader eligible by balance and account status but with no
`stripeAccountId` on file. -/
def readerNoAcct : ReaderProfile :=
  { id := "RN", userId := "UN", chatRatePerMin := 1, voiceRatePerMin := 1,
    videoRatePerMin := 1, status := .online, totalReadings := 0,
    pendingBalance := 20, totalEarned := 20, totalPaidOut := 0,
    stripeAccountId := none, stripeAccountStatus := .active }

def dbNoAcct : DB :=
  { clients := [], readers := [readerNoAcct], sessions := [],
    transactions := [], payouts := [], events := [] }

/-- C9 counterexample: a reader with `pending_balance = 20 ≥ 15` and
`stripeAccountStatus = active` — eligible per the claim — but with a null
`stripeAccountId` is selected and then skipped by the `continue`
(payouts.ts, 37–40): even with an always-succeeding transfer the run
processes nothing and changes nothing. -/
theorem payouts_skip_reader_without_account :
    payoutEligible readerNoAcct = true ∧
      processAutomaticPayouts (fun _ => some "T") dbNoAcct =
        (dbNoAcct, 0, 0, 0) := by
  have helig : payoutEligible readerNoAcct = true := by
    simp [payoutEligible, readerNoAcct, minPayoutAmount]
    norm_num
  refine ⟨helig, ?_⟩
  have hf : dbNoAcct.readers.filter payoutEligible = [readerNoAcct] := by
    simp [dbNoAcct, List.filter, helig]
  show payoutsGo (fun _ => some "T")
    (dbNoAcct.readers.filter payoutEligible) dbNoAcct 0 0 0 = (dbNoAcct, 0, 0, 0)
  rw [hf, payoutsGo_cons_skip (fun _ => some "T") readerNoAcct [] dbNoAcct
    0 0 0 rfl]
  rfl

/-- C9 (amended): the automatic run processes exactly the readers that have
`pending_balance ≥ 15.00`, an ACTIVE external account status, a Stripe
account id on file, and a succeeding transfer.  Each processed reader's
profile ends with `pending_balance = 0` and `total_paid_out` incremented by
the paid amount, and gains exactly one completed payout row and one
`payout` transaction; every other reader — including any whose own transfer
fails — is left completely untouched, so a failure for one reader does not
block the others. -/
theorem payouts_run_characterised (transfer : String → Option String)
    (db : DB) (r : ReaderProfile)
    (hids : (db.readers.map (fun x => x.id)).Nodup)
    (huids : (db.readers.map (fun x => x.userId)).Nodup)
    (hr : r ∈ db.readers) :
    ((payoutEligible r = true ∧
        ∃ acct tid, r.stripeAccountId = some acct ∧ transfer acct = some tid) →
      ((processAutomaticPayouts transfer db).1.readers.find?
          (fun x => x.id == r.id) =
            some (readerPaidUpdate r.pendingBalance r) ∧
        completedRowCount (processAutomaticPayouts transfer db).1.payouts
            r.id = completedRowCount db.payouts r.id + 1 ∧
        payoutTxCount (processAutomaticPayouts transfer db).1.transactions
            r.userId = payoutTxCount db.transactions r.userId + 1)) ∧
    (¬(payoutEligible r = true ∧
        ∃ acct tid, r.stripeAccountId = some acct ∧ transfer acct = some tid) →
      ((processAutomaticPayouts transfer db).1.readers.find?
          (fun x => x.id == r.id) = some r ∧
        completedRowCount (processAutomaticPayouts transfer db).1.payouts
            r.id = completedRowCount db.payouts r.id ∧
        payoutTxCount (processAutomaticPayouts transfer db).1.transactions
            r.userId = payoutTxCount db.transactions r.userId)) := by
  have hel_ids : ((db.readers.filter payoutEligible).map
      (fun x => x.id)).Nodup :=
    hids.sublist ((db.readers.filter_sublist).map (fun x => x.id))
  have hel_uids : ((db.readers.filter payoutEligible).map
      (fun x => x.userId)).Nodup :=
    huids.sublist ((db.readers.filter_sublist).map (fun x => x.userId))
  have hrun : processAutomaticPayouts transfer db =
      payoutsGo transfer (db.readers.filter payoutEligible) db 0 0 0 := rfl
  constructor
  · rintro ⟨helig, acct, tid, hacct, htr⟩
    have hrel : r ∈ db.readers.filter payoutEligible :=
      List.mem_filter.mpr ⟨hr, helig⟩
    obtain ⟨l1, l2, hsplit⟩ := List.append_of_mem hrel
    have hids_el : ((l1 ++ r :: l2).map (fun x => x.id)).Nodup := by
      rw [← hsplit]; exact hel_ids
    have huids_el : ((l1 ++ r :: l2).map (fun x => x.userId)).Nodup := by
      rw [← hsplit]; exact hel_uids
    obtain ⟨hL1id, hL2id⟩ := split_nodup_keys (fun x => x.id) l1 l2 r hids_el
    obtain ⟨hL1uid, hL2uid⟩ :=
      split_nodup_keys (fun x => x.userId) l1 l2 r huids_el
    have hprev : ∀ q ∈ l1, q.id ≠ r.id ∧ q.userId ≠ r.userId :=
      fun q hq => ⟨hL1id q hq, hL1uid q hq⟩
    have hnext : ∀ q ∈ l2, q.id ≠ r.id ∧ q.userId ≠ r.userId :=
      fun q hq => ⟨hL2id q hq, hL2uid q hq⟩
    rw [hrun, hsplit, payoutsGo_append]
    obtain ⟨p1, p2, p3⟩ :=
      payoutsGo_preserves transfer r.id r.userId l1 hprev db 0 0 0
    rw [payoutsGo_cons_success transfer r l2
      (payoutsGo transfer l1 db 0 0 0).1 (payoutsGo transfer l1 db 0 0 0).2.1
      (payoutsGo transfer l1 db 0 0 0).2.2.1
      (payoutsGo transfer l1 db 0 0 0).2.2.2 acct tid hacct htr]
    obtain ⟨q1, q2, q3⟩ := payoutsGo_preserves transfer r.id r.userId l2 hnext
      { (payoutsGo transfer l1 db 0 0 0).1 with
        payouts := (payoutsGo transfer l1 db 0 0 0).1.payouts ++
          [completedPayoutRow (payoutsGo transfer l1 db 0 0 0).1 r tid]
        readers := updateWhere (fun q => q.id == r.id)
          (readerPaidUpdate r.pendingBalance)
          (payoutsGo transfer l1 db 0 0 0).1.readers
        transactions := (payoutsGo transfer l1 db 0 0 0).1.transactions ++
          [payoutTxRow r] }
      ((payoutsGo transfer l1 db 0 0 0).2.1 + 1)
      (payoutsGo transfer l1 db 0 0 0).2.2.1
      ((payoutsGo transfer l1 db 0 0 0).2.2.2 + r.pendingBalance)
    refine ⟨?_, ?_, ?_⟩
    · rw [q1]
      dsimp only
      rw [find?_updateWhere_self (fun x => x.id == r.id)
        (readerPaidUpdate r.pendingBalance)
        (payoutsGo transfer l1 db 0 0 0).1.readers (fun x => rfl), p1,
        find?_key_of_nodup (fun x => x.id) db.readers hids r hr]
      rfl
    · rw [q2]
      dsimp only
      rw [completedRowCount_append, p2]
      have hone : completedRowCount
          [completedPayoutRow (payoutsGo transfer l1 db 0 0 0).1 r tid]
          r.id = 1 := by
        simp [completedRowCount, completedPayoutRow]
      rw [hone]
    · rw [q3]
      dsimp only
      rw [payoutTxCount_append, p3]
      have hone : payoutTxCount [payoutTxRow r] r.userId = 1 := by
        simp [payoutTxCount, payoutTxRow]
      rw [hone]
  · intro hnc
    by_cases helig : payoutEligible r = true
    · have hrel : r ∈ db.readers.filter payoutEligible :=
        List.mem_filter.mpr ⟨hr, helig⟩
      obtain ⟨l1, l2, hsplit⟩ := List.append_of_mem hrel
      have hids_el : ((l1 ++ r :: l2).map (fun x => x.id)).Nodup := by
        rw [← hsplit]; exact hel_ids
      have huids_el : ((l1 ++ r :: l2).map (fun x => x.userId)).Nodup := by
        rw [← hsplit]; exact hel_uids
      obtain ⟨hL1id, hL2id⟩ :=
        split_nodup_keys (fun x => x.id) l1 l2 r hids_el
      obtain ⟨hL1uid, hL2uid⟩ :=
        split_nodup_keys (fun x => x.userId) l1 l2 r huids_el
      have hprev : ∀ q ∈ l1, q.id ≠ r.id ∧ q.userId ≠ r.userId :=
        fun q hq => ⟨hL1id q hq, hL1uid q hq⟩
      have hnext : ∀ q ∈ l2, q.id ≠ r.id ∧ q.userId ≠ r.userId :=
        fun q hq => ⟨hL2id q hq, hL2uid q hq⟩
      rw [hrun, hsplit, payoutsGo_append]
      obtain ⟨p1, p2, p3⟩ :=
        payoutsGo_preserves transfer r.id r.userId l1 hprev db 0 0 0
      cases hacct : r.stripeAccountId with
      | none =>
        rw [payoutsGo_cons_skip transfer r l2
          (payoutsGo transfer l1 db 0 0 0).1
          (payoutsGo transfer l1 db 0 0 0).2.1
          (payoutsGo transfer l1 db 0 0 0).2.2.1
          (payoutsGo transfer l1 db 0 0 0).2.2.2 hacct]
        obtain ⟨q1, q2, q3⟩ := payoutsGo_preserves transfer r.id r.userId l2
          hnext (payoutsGo transfer l1 db 0 0 0).1
          (payoutsGo transfer l1 db 0 0 0).2.1
          (payoutsGo transfer l1 db 0 0 0).2.2.1
          (payoutsGo transfer l1 db 0 0 0).2.2.2
        refine ⟨?_, by rw [q2, p2], by rw [q3, p3]⟩
        rw [q1, p1, find?_key_of_nodup (fun x => x.id) db.readers hids r hr]
      | some acct =>
        have htr : transfer acct = none := by
          cases htrc : transfer acct with
          | none => rfl
          | some tid => exact absurd ⟨helig, acct, tid, hacct, htrc⟩ hnc
        rw [payoutsGo_cons_failure transfer r l2
          (payoutsGo transfer l1 db 0 0 0).1
          (payoutsGo transfer l1 db 0 0 0).2.1
          (payoutsGo transfer l1 db 0 0 0).2.2.1
          (payoutsGo transfer l1 db 0 0 0).2.2.2 acct hacct htr]
        obtain ⟨q1, q2, q3⟩ := payoutsGo_preserves transfer r.id r.userId l2
          hnext
          { (payoutsGo transfer l1 db 0 0 0).1 with
            payouts := updateWhere
              (fun q => q.readerId == r.id && q.status == "processing")
              (fun q => { q with status := "failed" })
              ((payoutsGo transfer l1 db 0 0 0).1.payouts ++
                [processingPayoutRow (payoutsGo transfer l1 db 0 0 0).1 r]) }
          (payoutsGo transfer l1 db 0 0 0).2.1
          ((payoutsGo transfer l1 db 0 0 0).2.2.1 + 1)
          (payoutsGo transfer l1 db 0 0 0).2.2.2
        refine ⟨?_, ?_, by rw [q3]; dsimp only; rw [p3]⟩
        · rw [q1]
          dsimp only
          rw [p1, find?_key_of_nodup (fun x => x.id) db.readers hids r hr]
        · rw [q2]
          dsimp only
          rw [completedRowCount_failure _ _ _ rfl, p2]
    · have hdiff : ∀ q ∈ db.readers.filter payoutEligible,
          q.id ≠ r.id ∧ q.userId ≠ r.userId := by
        intro q hq
        have hqmem : q ∈ db.readers := List.mem_of_mem_filter hq
        have hqel : payoutEligible q = true := List.of_mem_filter hq
        have hqner : q ≠ r := fun hqr => helig (hqr ▸ hqel)
        exact ⟨fun hid => hqner (List.inj_on_of_nodup_map hids hqmem hr hid),
          fun hid => hqner (List.inj_on_of_nodup_map huids hqmem hr hid)⟩
      rw [hrun]
      obtain ⟨p1, p2, p3⟩ := payoutsGo_preserves transfer r.id r.userId
        (db.readers.filter payoutEligible) hdiff db 0 0 0
      exact ⟨by
        rw [p1, find?_key_of_nodup (fun x => x.id) db.readers hids r hr],
        p2, p3⟩

/-- A fully eligible reader: balance at the 15.00 floor, active account
with an id on file (spec §8 scenario 6, reader R2). -/
def readerEligible : ReaderProfile :=
  { id := "RE", userId := "UE", chatRatePerMin := 1, voiceRatePerMin := 1,
    videoRatePerMin := 1, status := .online, totalReadings := 0,
    pendingBalance := 15, totalEarned := 15, totalPaidOut := 0,
    stripeAccountId := some "acctE", stripeAccountStatus := .active }

def dbEligible : DB :=
  { clients := [], readers := [readerEligible], sessions := [],
    transactions := [], payouts := [], events := [] }

/-- C9 witness: the amended statement at a single fully eligible reader
with a succeeding transfer. -/
theorem payouts_run_characterised_witness :
    ((payoutEligible readerEligible = true ∧
        ∃ acct tid, readerEligible.stripeAccountId = some acct ∧
          (fun (_ : String) => some "TX") acct = some tid) →
      ((processAutomaticPayouts (fun _ => some "TX") dbEligible).1.readers.find?
          (fun x => x.id == readerEligible.id) =
            some (readerPaidUpdate readerEligible.pendingBalance readerEligible) ∧
        completedRowCount
            (processAutomaticPayouts (fun _ => some "TX") dbEligible).1.payouts
            readerEligible.id =
          completedRowCount dbEligible.payouts readerEligible.id + 1 ∧
        payoutTxCount
            (processAutomaticPayouts (fun _ => some "TX") dbEligible).1.transactions
            readerEligible.userId =
          payoutTxCount dbEligible.transactions readerEligible.userId + 1)) ∧
    (¬(payoutEligible readerEligible = true ∧
        ∃ acct tid, readerEligible.stripeAccountId = some acct ∧
          (fun (_ : String) => some "TX") acct = some tid) →
      ((processAutomaticPayouts (fun _ => some "TX") dbEligible).1.readers.find?
          (fun x => x.id == readerEligible.id) = some readerEligible ∧
        completedRowCount
            (processAutomaticPayouts (fun _ => some "TX") dbEligible).1.payouts
            readerEligible.id =
          completedRowCount dbEligible.payouts readerEligible.id ∧
        payoutTxCount
            (processAutomaticPayouts (fun _ => some "TX") dbEligible).1.transactions
            readerEligible.userId =
          payoutTxCount dbEligible.transactions readerEligible.userId)) :=
  payouts_run_characterised (fun _ => some "TX") dbEligible readerEligible
    (by simp [dbEligible]) (by simp [dbEligible]) (by simp [dbEligible])
